import Mathlib

/-
  A shallow embedding of the request-binding core of go-tagexpr
  (src/binding/bind.go) together with proofs about its plan builder,
  plan cache, traversal policy, dispatch loop, and error factories.

  Definitions are translated from src/binding/bind.go.  Parts of the
  repository that the file calls but that are not under src/ (the
  receiver and paramInfo helpers, derefValue, getParamName, the
  validator marker names) are modelled from the specification; each
  such definition carries a doc comment saying so.
-/

set_option autoImplicit false

namespace TagExprBinding

/-- Traversal level, mirroring the Level type of bind.go (a uint8). -/
abbrev Level := Nat

/-- OnlyFirst handles only the first level fields. -/
def OnlyFirst : Level := 0

/-- FirstAndTagged handles the first level fields and all the tagged fields. -/
def FirstAndTagged : Level := 1

/-- Any handles any level fields. -/
def Any : Level := 2

/-- A binding or validation error value: the failing field selector plus a message. -/
structure BindError where
  failField : String
  msg : String
deriving DecidableEq, Repr

/-- An error factory, as in bind.go: func(failField, msg string) error. -/
abbrev ErrFactory := String → String → BindError

/-- Modelled from the spec: newDefaultErrorFactory is not under src/; the defaults
produce generic "binding failed" and "invalid parameter" messages. -/
def newDefaultErrorFactory (prompt : String) : ErrFactory :=
  fun failField msg => { failField := failField, msg := prompt ++ ": " ++ msg }

/-- The default validating-error factory (bind.go line 61). -/
def defaultValidatingErrFactory : ErrFactory := newDefaultErrorFactory "invalid parameter"

/-- The default bind-error factory (bind.go line 62). -/
def defaultBindErrFactory : ErrFactory := newDefaultErrorFactory "binding failed"

/-- The source kind of a parameter: the in value assigned in getObjOrPrepare. -/
inductive In where
  | auto
  | raw_body
  | body
  | query
  | path
  | header
  | cookie
deriving DecidableEq, Repr

/-- Modelled from the spec: the value a field sub-expression evaluates to, as consumed
by getParamName and FakeBool (expression evaluation is external to bind.go). -/
inductive EvalResult where
  | nameStr (s : String)
  | keepDefault
  | bad
  | boolVal (b : Bool)
deriving DecidableEq, Repr

/-- One named sub-expression attached to a field: its name (es.Name()), its
expression selector string, and its evaluation result. -/
structure EvalEntry where
  esName : String
  selector : String
  arg : EvalResult
deriving DecidableEq, Repr

/-- One field exposed by the expression VM run: the number of parent path segments
of its selector, its declared name, its string selector, whether it can be set,
and its attached sub-expressions in iteration order. -/
structure FieldInfo where
  pathsLen : Nat
  name : String
  selector : String
  canSet : Bool
  evals : List EvalEntry
deriving DecidableEq, Repr

/-- One field descriptor of a binding plan (paramInfo): the field it writes to,
its external parameter name, its source, and its required flag. -/
structure ParamInfo where
  fieldKey : String
  name : String
  in_ : In
  required : Bool
deriving DecidableEq, Repr

/-- The binding plan of one record type (the receiver struct): the ordered field
descriptors plus the aggregate flags set in getObjOrPrepare.  The flags are exactly
the ones bind.go assigns; there is no header flag. -/
structure Receiver where
  params : List ParamInfo
  hasAuto : Bool
  hasQuery : Bool
  hasCookie : Bool
  hasPath : Bool
  hasBody : Bool
  hasRawBody : Bool
  hasVd : Bool
deriving DecidableEq, Repr

/-- Modelled from the spec: the validator match marker name (validator.MatchExprName,
external to bind.go). -/
def MatchExprName : String := "@"

/-- Modelled from the spec: the validator error-message marker name
(validator.ErrMsgExprName, external to bind.go). -/
def ErrMsgExprName : String := "msg"

/-- Modelled from the spec: tagexpr.FakeBool coerces an evaluation result to Bool. -/
def FakeBool : EvalResult → Bool
  | EvalResult.boolVal b => b
  | _ => false

/-- Modelled from the spec: getParamName is not under src/; it reads the directive
argument as the external parameter name, keeping the current default when the
directive supplies none, and failing on a malformed argument. -/
def getParamName (arg : EvalResult) (defaultName : String) : String × String :=
  match arg with
  | EvalResult.nameStr s => (s, "")
  | EvalResult.keepDefault => (defaultName, "")
  | EvalResult.boolVal _ => (defaultName, "")
  | EvalResult.bad => (defaultName, "parameter name value must be a string type")

/-- Contents of a destination record: field-selector keyed string values. -/
abbrev Rec := List (String × String)

/-- Look up a name in a key-value collection (first match wins). -/
def lookupVal (kvs : List (String × String)) (nm : String) : Option String :=
  (kvs.find? (fun kv => kv.fst == nm)).map Prod.snd

/-- Write a value into one field of a record. -/
def setField (st : Rec) (k v : String) : Rec := (k, v) :: st

deriving instance DecidableEq for Except

/-- A destination struct value: addressability, runtime type identity, the per-type
field analysis that the expression VM run returns for it, and its field contents. -/
structure StructVal where
  canAddr : Bool
  tid : Nat
  compile : Except BindError (List FieldInfo)
  recData : Rec
deriving DecidableEq, Repr

/-- Abstraction of the reflect.Value inputs that structValueOf distinguishes. -/
inductive GoValue where
  | ptrNil
  | ptrTo (v : GoValue)
  | structVal (s : StructVal)
  | invalid
  | other
deriving DecidableEq, Repr

/-- Modelled from the spec: derefValue is not under src/; it follows pointers to the
pointed-to value, and a nil pointer dereferences to the invalid value. -/
def derefValue : GoValue → GoValue
  | GoValue.ptrTo v => derefValue v
  | GoValue.ptrNil => GoValue.invalid
  | GoValue.structVal s => GoValue.structVal s
  | GoValue.invalid => GoValue.invalid
  | GoValue.other => GoValue.other

/-- A live request, reduced to the per-source value collections the dispatcher reads. -/
structure Request where
  queryVals : List (String × String)
  pathVals : List (String × String)
  headerVals : List (String × String)
  cookieVals : List (String × String)
  bodyVals : List (String × String)
  rawBody : String
deriving DecidableEq, Repr

/-- Modelled from the spec: the per-source bind methods of paramInfo are not under
src/; look up the external parameter name in one source, write it on a hit, fail
naming the field when absent and required, leave the field untouched otherwise. -/
def bindFrom (bf : ErrFactory) (vals : List (String × String)) (srcName : String)
    (p : ParamInfo) (st : Rec) : Except BindError Rec :=
  match lookupVal vals p.name with
  | some v => Except.ok (setField st p.fieldKey v)
  | none =>
    if p.required then
      Except.error (bf p.fieldKey ("missing required parameter " ++ p.name ++ " in " ++ srcName))
    else Except.ok st

/-- Modelled from the spec: body extraction also reports whether the body contained a
matching value, which drives the auto fallback in Binding.bind. -/
def bindBody (bf : ErrFactory) (bodyVals : List (String × String))
    (p : ParamInfo) (st : Rec) : Bool × Except BindError Rec :=
  match lookupVal bodyVals p.name with
  | some v => (true, Except.ok (setField st p.fieldKey v))
  | none =>
    (false,
      if p.required then
        Except.error (bf p.fieldKey ("missing required parameter " ++ p.name ++ " in body"))
      else Except.ok st)

/-- Modelled from the spec: a raw-body field receives the whole payload verbatim,
with no name lookup. -/
def bindRawBody (p : ParamInfo) (rawBody : String) (st : Rec) : Except BindError Rec :=
  Except.ok (setField st p.fieldKey rawBody)

/-- One iteration of the dispatch loop of Binding.bind (lines 272-292): switch on the
descriptor's source; the default branch is the auto body-then-query fallback. -/
def dispatchOne (bf : ErrFactory) (req : Request) (st : Rec) (p : ParamInfo) :
    Except BindError Rec :=
  match p.in_ with
  | In.query => bindFrom bf req.queryVals "query" p st
  | In.path => bindFrom bf req.pathVals "path" p st
  | In.header => bindFrom bf req.headerVals "header" p st
  | In.cookie => bindFrom bf req.cookieVals "cookie" p st
  | In.body => (bindBody bf req.bodyVals p st).snd
  | In.raw_body => bindRawBody p req.rawBody st
  | In.auto =>
    let fr := bindBody bf req.bodyVals p st
    if fr.fst then fr.snd else bindFrom bf req.queryVals "query" p st

/-- The dispatch loop of Binding.bind: plan order, stop at the first error, returning
the record contents reached together with the error if any. -/
def bindLoop (bf : ErrFactory) (req : Request) : List ParamInfo → Rec → Rec × Option BindError
  | [], st => (st, none)
  | p :: rest, st =>
    match dispatchOne bf req st p with
    | Except.ok st2 => bindLoop bf req rest st2
    | Except.error e => (st, some e)

/-- The recognized source/required directive names of the FirstAndTagged filter
(bind.go line 158). -/
def isTagName (nm : String) : Bool :=
  nm == "raw_body" || nm == "body" || nm == "query" || nm == "path" ||
    nm == "header" || nm == "cookie" || nm == "required"

/-- The six source directive names. -/
def isSourceName (nm : String) : Bool :=
  nm == "raw_body" || nm == "body" || nm == "query" || nm == "path" ||
    nm == "header" || nm == "cookie"

/-- The traversal-policy filter applied to each field by the RangeFields callback of
getObjOrPrepare (lines 146-170): the default switch branch never skips. -/
def shouldSkip (level : Level) (f : FieldInfo) : Bool :=
  if level = OnlyFirst then decide (0 < f.pathsLen)
  else if level = FirstAndTagged then
    decide (0 < f.pathsLen) && !(f.evals.any (fun e => isTagName e.esName))
  else false

/-- State threaded through the sub-expression loop of getObjOrPrepare for one field. -/
structure EvalSt where
  recv : Receiver
  in_ : In
  name : String
  required : Bool
  errMsg : String
  errSel : String
deriving DecidableEq, Repr

/-- Apply getParamName after a source directive (bind.go lines 220-224), recording a
failure in the error fields. -/
def applyName (st : EvalSt) (e : EvalEntry) : EvalSt :=
  if (getParamName e.arg st.name).snd ≠ "" then
    { st with errMsg := (getParamName e.arg st.name).snd, errSel := e.selector }
  else { st with name := (getParamName e.arg st.name).fst }

/-- One iteration of the sub-expression switch of getObjOrPrepare (lines 186-225); a
pending error means the range loop has already been aborted, so the state is kept. -/
def stepEval (st : EvalSt) (e : EvalEntry) : EvalSt :=
  if st.errMsg ≠ "" then st
  else if e.esName == MatchExprName then { st with recv := { st.recv with hasVd := true } }
  else if e.esName == ErrMsgExprName then st
  else if e.esName == "required" then { st with required := FakeBool e.arg }
  else if e.esName == "raw_body" then
    applyName { st with recv := { st.recv with hasRawBody := true }, in_ := In.raw_body } e
  else if e.esName == "body" then
    applyName { st with recv := { st.recv with hasBody := true }, in_ := In.body } e
  else if e.esName == "query" then
    applyName { st with recv := { st.recv with hasQuery := true }, in_ := In.query } e
  else if e.esName == "path" then
    applyName { st with recv := { st.recv with hasPath := true }, in_ := In.path } e
  else if e.esName == "header" then
    applyName { st with in_ := In.header } e
  else if e.esName == "cookie" then
    applyName { st with recv := { st.recv with hasCookie := true }, in_ := In.cookie } e
  else st

/-- Run the sub-expression loop over a field's attached entries. -/
def runEvals (st : EvalSt) (es : List EvalEntry) : EvalSt := es.foldl stepEval st

/-- Completion of one field after its sub-expression loop: abort on a pending error,
otherwise apply the auto flagging of lines 227-230 and append the field's descriptor
(p.in and p.name assignment, lines 231-232). -/
def finishField (selector : String) (st : EvalSt) : Except (String × String) Receiver :=
  if st.errMsg ≠ "" then Except.error (st.errSel, st.errMsg)
  else if st.in_ = In.auto then
    Except.ok { st.recv with
      hasBody := true
      hasAuto := true
      params := st.recv.params ++
        [{ fieldKey := selector, name := st.name, in_ := In.auto, required := st.required }] }
  else
    Except.ok { st.recv with params := st.recv.params ++
      [{ fieldKey := selector, name := st.name, in_ := st.in_, required := st.required }] }

/-- The per-field loop state at entry (bind.go line 179 and the p and name defaults):
source auto, the declared field name, not required, no pending error. -/
def initEvalSt (r : Receiver) (fname : String) : EvalSt :=
  { recv := r, in_ := In.auto, name := fname, required := false, errMsg := "", errSel := "" }

/-- Processing of one field by the RangeFields callback of getObjOrPrepare: policy
skip, settability check, sub-expression interpretation, then completion. -/
def processField (level : Level) (r : Receiver) (f : FieldInfo) :
    Except (String × String) Receiver :=
  if shouldSkip level f then Except.ok r
  else if !f.canSet then Except.error (f.selector, "field cannot be set: " ++ f.selector)
  else finishField f.selector (runEvals (initEvalSt r f.name) f.evals)

/-- Fold processField over the fields in declaration order, stopping at the first
failure, as RangeFields does when the callback returns false. -/
def buildFields (level : Level) : List FieldInfo → Receiver → Except (String × String) Receiver
  | [], r => Except.ok r
  | f :: fs, r =>
    match processField level r f with
    | Except.error e => Except.error e
    | Except.ok r2 => buildFields level fs r2

/-- The fresh receiver allocated by getObjOrPrepare (line 136): no params, all flags
false. -/
def emptyReceiver : Receiver :=
  { params := [], hasAuto := false, hasQuery := false, hasCookie := false,
    hasPath := false, hasBody := false, hasRawBody := false, hasVd := false }

/-- Plan building from the field list returned by the expression VM (getObjOrPrepare
lines 136-240): interpret every field, then wrap a pending error via the bind-error
factory (line 237). -/
def buildPlan (level : Level) (bf : ErrFactory) (fields : List FieldInfo) :
    Except BindError Receiver :=
  match buildFields level fields emptyReceiver with
  | Except.error sm => Except.error (bf sm.fst sm.snd)
  | Except.ok r => Except.ok r

/-- The binding tool: traversal level, the two error factories (the validating one
lives inside the validator in Go), and the plan cache. -/
structure Binding where
  level : Level
  bindErrFactory : ErrFactory
  vdErrFactory : ErrFactory
  recvs : List (Nat × Receiver)

/-- Plan-cache lookup by runtime type identity (b.recvs.Load). -/
def lookupRecv (recvs : List (Nat × Receiver)) (tid : Nat) : Option Receiver :=
  (recvs.find? (fun kv => kv.fst == tid)).map Prod.snd

/-- Binding.getObjOrPrepare (lines 125-244): cached plan lookup, else a VM run and a
plan build, storing only successfully built plans; returns the plan outcome and the
updated cache contents. -/
def Binding.getObjOrPrepare (b : Binding) (tid : Nat)
    (compile : Except BindError (List FieldInfo)) :
    Except BindError Receiver × List (Nat × Receiver) :=
  match lookupRecv b.recvs tid with
  | some r => (Except.ok r, b.recvs)
  | none =>
    match compile with
    | Except.error e => (Except.error e, b.recvs)
    | Except.ok fields =>
      match buildPlan b.level b.bindErrFactory fields with
      | Except.error e => (Except.error e, b.recvs)
      | Except.ok recv => (Except.ok recv, (tid, recv) :: b.recvs)

/-- The outcome of Binding.bind: error if any, the destination record contents after
the call, the cache contents, and the reported hasVd flag. -/
structure CoreOut where
  err : Option BindError
  recData : Rec
  recvs : List (Nat × Receiver)
  hasVd : Bool
deriving DecidableEq, Repr

/-- Binding.bind on a checked struct value (lines 246-298): plan lookup or build, a
second VM run on the live value, then the dispatch loop; the loop error case reports
recv.hasVd, the earlier error cases report false. -/
def Binding.bindStruct (b : Binding) (sv : StructVal) (req : Request) : CoreOut :=
  match b.getObjOrPrepare sv.tid sv.compile with
  | (Except.error e, rs) => { err := some e, recData := sv.recData, recvs := rs, hasVd := false }
  | (Except.ok recv, rs) =>
    match sv.compile with
    | Except.error e => { err := some e, recData := sv.recData, recvs := rs, hasVd := false }
    | Except.ok _ =>
      let out := bindLoop b.bindErrFactory req recv.params sv.recData
      { err := out.snd, recData := out.fst, recvs := rs, hasVd := recv.hasVd }

/-- The fixed message of structValueOf. -/
def spMsg : String := "structPointer must be a non-nil struct pointer"

/-- Kind check: is the value a pointer (possibly nil)? -/
def isPtrB : GoValue → Bool
  | GoValue.ptrNil => true
  | GoValue.ptrTo _ => true
  | _ => false

/-- Binding.structValueOf (lines 110-123): the destination must be a pointer whose
dereference is a valid, addressable struct; otherwise a binding error with an empty
field selector and the fixed message. -/
def structValueOf (bf : ErrFactory) (v : GoValue) : Except BindError StructVal :=
  if isPtrB v then
    match derefValue v with
    | GoValue.structVal s =>
      if s.canAddr then Except.ok s else Except.error (bf "" spMsg)
    | _ => Except.error (bf "" spMsg)
  else Except.error (bf "" spMsg)

/-- Decidable characterisation of the inputs structValueOf rejects. -/
def notStructPtr (v : GoValue) : Bool :=
  !isPtrB v ||
    (match derefValue v with
     | GoValue.structVal s => !s.canAddr
     | _ => true)

/-- The record contents reachable from a destination value (empty when it holds none). -/
def recOfValue (v : GoValue) : Rec :=
  match derefValue v with
  | GoValue.structVal s => s.recData
  | _ => []

/-- Binding.Bind (lines 96-103): check the destination, then bind. -/
def Binding.Bind (b : Binding) (sp : GoValue) (req : Request) : CoreOut :=
  match structValueOf b.bindErrFactory sp with
  | Except.error e => { err := some e, recData := recOfValue sp, recvs := b.recvs, hasVd := false }
  | Except.ok sv => b.bindStruct sv req

/-- The outcome of Binding.BindAndValidate: error, record contents, cache contents,
and whether the validation evaluator was invoked. -/
structure AVOut where
  err : Option BindError
  recData : Rec
  recvs : List (Nat × Receiver)
  ranVd : Bool
deriving DecidableEq, Repr

/-- Binding.BindAndValidate (lines 80-93): check the destination, bind, and run the
external validation evaluator only when binding succeeded and the plan carries a
validation rule. -/
def Binding.BindAndValidate (b : Binding) (validate : Rec → Option BindError)
    (sp : GoValue) (req : Request) : AVOut :=
  match structValueOf b.bindErrFactory sp with
  | Except.error e => { err := some e, recData := recOfValue sp, recvs := b.recvs, ranVd := false }
  | Except.ok sv =>
    let c := b.bindStruct sv req
    match c.err with
    | some e => { err := some e, recData := c.recData, recvs := c.recvs, ranVd := false }
    | none =>
      if c.hasVd then { err := validate c.recData, recData := c.recData, recvs := c.recvs, ranVd := true }
      else { err := none, recData := c.recData, recvs := c.recvs, ranVd := false }

/-- Binding.SetLevel (lines 51-59): recognized levels are stored as given, anything
else falls back to FirstAndTagged. -/
def Binding.SetLevel (b : Binding) (level : Level) : Binding :=
  if level = OnlyFirst ∨ level = FirstAndTagged ∨ level = Any then { b with level := level }
  else { b with level := FirstAndTagged }

/-- Binding.SetErrorFactory (lines 67-77): a nil argument selects that factory's
default; the second factory is pushed into the validator. -/
def Binding.SetErrorFactory (b : Binding) (bindErrFactory validatingErrFactory : Option ErrFactory) :
    Binding :=
  { b with bindErrFactory := bindErrFactory.getD defaultBindErrFactory,
           vdErrFactory := validatingErrFactory.getD defaultValidatingErrFactory }

/-- New (lines 37-46) creates a binding tool; the tag name only parameterizes the
external evaluator, which the embedding abstracts away. -/
def New (tagName : String) : Binding :=
  Binding.SetErrorFactory
    (Binding.SetLevel
      { level := OnlyFirst, bindErrFactory := defaultBindErrFactory,
        vdErrFactory := defaultValidatingErrFactory, recvs := [] }
      FirstAndTagged)
    none none

def wParamA : ParamInfo := { fieldKey := "A", name := "a", in_ := In.query, required := false }

def wParamB : ParamInfo := { fieldKey := "B", name := "b", in_ := In.query, required := true }

def wReq : Request :=
  { queryVals := [("a", "1")], pathVals := [], headerVals := [], cookieVals := [],
    bodyVals := [], rawBody := "" }

def wErr : BindError :=
  { failField := "B", msg := "binding failed: missing required parameter b in query" }

def wParamAuto : ParamInfo := { fieldKey := "X", name := "x", in_ := In.auto, required := false }

def wReqBoth : Request :=
  { queryVals := [("x", "fromQuery")], pathVals := [], headerVals := [], cookieVals := [],
    bodyVals := [("x", "fromBody")], rawBody := "" }

/-- Does a field carry a sub-expression with the given name? -/
def fieldHasEval (f : FieldInfo) (nm : String) : Bool :=
  f.evals.any (fun e => e.esName == nm)

/-- Does a field carry no source directive at all, so that its source stays auto? -/
def autoResolved (f : FieldInfo) : Bool :=
  f.evals.all (fun e => !isSourceName e.esName)

def flagsOf (r : Receiver) : List Bool :=
  [r.hasAuto, r.hasQuery, r.hasCookie, r.hasPath, r.hasBody, r.hasRawBody, r.hasVd]

def readsHeader (r : Receiver) : Bool := r.params.any (fun p => p.in_ == In.header)

def headerOnlyField : FieldInfo :=
  { pathsLen := 0, name := "Token", selector := "Token", canSet := true,
    evals := [{ esName := "header", selector := "TokenHdr", arg := EvalResult.keepDefault }] }

def headerPlanReceiver : Receiver :=
  { params := [{ fieldKey := "Token", name := "Token", in_ := In.header, required := false }],
    hasAuto := false, hasQuery := false, hasCookie := false, hasPath := false,
    hasBody := false, hasRawBody := false, hasVd := false }

def wCachedBinding : Binding :=
  { level := FirstAndTagged, bindErrFactory := defaultBindErrFactory,
    vdErrFactory := defaultValidatingErrFactory, recvs := [(7, emptyReceiver)] }

def wNestedField : FieldInfo :=
  { pathsLen := 1, name := "Inner", selector := "OuterInner", canSet := true, evals := [] }

def wEmptyReq : Request :=
  { queryVals := [], pathVals := [], headerVals := [], cookieVals := [],
    bodyVals := [], rawBody := "" }

def wNoValidate : Rec → Option BindError := fun _ => none

def wQueryField : FieldInfo :=
  { pathsLen := 0, name := "Page", selector := "Page", canSet := true,
    evals := [{ esName := "query", selector := "PageQ", arg := EvalResult.nameStr "page" }] }

def wQueryReceiver : Receiver :=
  { params := [{ fieldKey := "Page", name := "page", in_ := In.query, required := false }],
    hasAuto := false, hasQuery := true, hasCookie := false, hasPath := false,
    hasBody := false, hasRawBody := false, hasVd := false }

def wVdField : FieldInfo :=
  { pathsLen := 0, name := "V", selector := "V", canSet := true,
    evals := [{ esName := "@", selector := "VAt", arg := EvalResult.keepDefault }] }

def wVdReceiver : Receiver :=
  { params := [{ fieldKey := "V", name := "V", in_ := In.auto, required := false }],
    hasAuto := true, hasQuery := false, hasCookie := false, hasPath := false,
    hasBody := true, hasRawBody := false, hasVd := true }

def wValidateAlways : Rec → Option BindError := fun _ => some wErr

def wVdStruct : GoValue :=
  GoValue.ptrTo (GoValue.structVal
    { canAddr := true, tid := 3, compile := Except.ok [wVdField], recData := [] })

theorem lookupVal_setField_ne (st : Rec) (k v k2 : String) (h : k2 ≠ k) :
    lookupVal (setField st k v) k2 = lookupVal st k2 := by
  simp [lookupVal, setField, List.find?_cons, beq_eq_false_iff_ne.mpr (Ne.symm h)]

theorem bindFrom_ne_key (bf : ErrFactory) (vals : List (String × String)) (srcName : String)
    (p : ParamInfo) (st st2 : Rec) (h : bindFrom bf vals srcName p st = Except.ok st2)
    (k : String) (hk : k ≠ p.fieldKey) : lookupVal st2 k = lookupVal st k := by
  unfold bindFrom at h
  cases hv : lookupVal vals p.name with
  | some v =>
    rw [hv] at h
    cases h
    exact lookupVal_setField_ne st p.fieldKey v k hk
  | none =>
    rw [hv] at h
    by_cases hr : p.required
    · simp [hr] at h
    · simp [hr] at h
      rw [h]

theorem bindBody_ne_key (bf : ErrFactory) (bodyVals : List (String × String))
    (p : ParamInfo) (st st2 : Rec) (h : (bindBody bf bodyVals p st).snd = Except.ok st2)
    (k : String) (hk : k ≠ p.fieldKey) : lookupVal st2 k = lookupVal st k := by
  unfold bindBody at h
  cases hv : lookupVal bodyVals p.name with
  | some v =>
    rw [hv] at h
    cases h
    exact lookupVal_setField_ne st p.fieldKey v k hk
  | none =>
    rw [hv] at h
    by_cases hr : p.required
    · simp [hr] at h
    · simp [hr] at h
      rw [h]

theorem dispatchOne_ne_key (bf : ErrFactory) (req : Request) (st st2 : Rec) (p : ParamInfo)
    (h : dispatchOne bf req st p = Except.ok st2) (k : String) (hk : k ≠ p.fieldKey) :
    lookupVal st2 k = lookupVal st k := by
  unfold dispatchOne at h
  cases hin : p.in_ <;> rw [hin] at h
  case query => exact bindFrom_ne_key _ _ _ _ _ _ h k hk
  case path => exact bindFrom_ne_key _ _ _ _ _ _ h k hk
  case header => exact bindFrom_ne_key _ _ _ _ _ _ h k hk
  case cookie => exact bindFrom_ne_key _ _ _ _ _ _ h k hk
  case body => exact bindBody_ne_key _ _ _ _ _ h k hk
  case raw_body =>
    unfold bindRawBody at h
    cases h
    exact lookupVal_setField_ne st p.fieldKey req.rawBody k hk
  case auto =>
    by_cases hf : (bindBody bf req.bodyVals p st).fst
    · simp only [hf, if_true] at h
      exact bindBody_ne_key _ _ _ _ _ h k hk
    · simp only [hf, if_false] at h
      exact bindFrom_ne_key _ _ _ _ _ _ h k hk

theorem lookupRecv_cons_self (l : List (Nat × Receiver)) (tid : Nat) (recv : Receiver) :
    lookupRecv ((tid, recv) :: l) tid = some recv := by
  simp [lookupRecv, List.find?_cons]

theorem structValueOf_rejects (bf : ErrFactory) (v : GoValue) (h : notStructPtr v = true) :
    structValueOf bf v = Except.error (bf "" spMsg) := by
  unfold notStructPtr at h
  unfold structValueOf
  cases hp : isPtrB v with
  | false => simp [hp]
  | true =>
    rw [hp] at h
    simp only [Bool.not_true, Bool.false_or] at h
    cases hd : derefValue v with
    | structVal s =>
      rw [hd] at h
      simp only [Bool.not_eq_true'] at h
      simp [h]
    | ptrNil => rw [hd] at h; simp [hd]
    | ptrTo v2 => rw [hd] at h; simp [hd]
    | invalid => simp [hd]
    | other => simp [hd]

theorem applyName_recv (st : EvalSt) (e : EvalEntry) : (applyName st e).recv = st.recv := by
  unfold applyName
  split <;> rfl

theorem applyName_in (st : EvalSt) (e : EvalEntry) : (applyName st e).in_ = st.in_ := by
  unfold applyName
  split <;> rfl

theorem stepEval_frozen (st : EvalSt) (e : EvalEntry) (h : st.errMsg ≠ "") :
    stepEval st e = st := by
  unfold stepEval
  rw [if_pos h]

theorem stepEval_err_back (st : EvalSt) (e : EvalEntry) (h : (stepEval st e).errMsg = "") :
    st.errMsg = "" := by
  by_cases h0 : st.errMsg = ""
  · exact h0
  · rw [stepEval_frozen st e h0] at h
    exact absurd h h0

theorem runEvals_err_back (es : List EvalEntry) (st : EvalSt)
    (h : (runEvals st es).errMsg = "") : st.errMsg = "" := by
  induction es generalizing st with
  | nil => exact h
  | cons e rest ih => exact stepEval_err_back st e (ih (stepEval st e) h)

theorem stepEval_hasQuery (st : EvalSt) (e : EvalEntry) (h : st.errMsg = "") :
    (stepEval st e).recv.hasQuery = (st.recv.hasQuery || (e.esName == "query")) := by
  unfold stepEval
  rw [if_neg (by simp [h])]
  split_ifs with h1 h2 h3 h4 h5 h6 h7 h8 h9 <;>
    simp_all [applyName_recv, MatchExprName, ErrMsgExprName]

theorem stepEval_hasPath (st : EvalSt) (e : EvalEntry) (h : st.errMsg = "") :
    (stepEval st e).recv.hasPath = (st.recv.hasPath || (e.esName == "path")) := by
  unfold stepEval
  rw [if_neg (by simp [h])]
  split_ifs with h1 h2 h3 h4 h5 h6 h7 h8 h9 <;>
    simp_all [applyName_recv, MatchExprName, ErrMsgExprName]

theorem stepEval_hasCookie (st : EvalSt) (e : EvalEntry) (h : st.errMsg = "") :
    (stepEval st e).recv.hasCookie = (st.recv.hasCookie || (e.esName == "cookie")) := by
  unfold stepEval
  rw [if_neg (by simp [h])]
  split_ifs with h1 h2 h3 h4 h5 h6 h7 h8 h9 <;>
    simp_all [applyName_recv, MatchExprName, ErrMsgExprName]

theorem stepEval_hasRawBody (st : EvalSt) (e : EvalEntry) (h : st.errMsg = "") :
    (stepEval st e).recv.hasRawBody = (st.recv.hasRawBody || (e.esName == "raw_body")) := by
  unfold stepEval
  rw [if_neg (by simp [h])]
  split_ifs with h1 h2 h3 h4 h5 h6 h7 h8 h9 <;>
    simp_all [applyName_recv, MatchExprName, ErrMsgExprName]

theorem stepEval_hasBody (st : EvalSt) (e : EvalEntry) (h : st.errMsg = "") :
    (stepEval st e).recv.hasBody = (st.recv.hasBody || (e.esName == "body")) := by
  unfold stepEval
  rw [if_neg (by simp [h])]
  split_ifs with h1 h2 h3 h4 h5 h6 h7 h8 h9 <;>
    simp_all [applyName_recv, MatchExprName, ErrMsgExprName]

theorem stepEval_hasVd (st : EvalSt) (e : EvalEntry) (h : st.errMsg = "") :
    (stepEval st e).recv.hasVd = (st.recv.hasVd || (e.esName == MatchExprName)) := by
  unfold stepEval
  rw [if_neg (by simp [h])]
  split_ifs with h1 h2 h3 h4 h5 h6 h7 h8 h9 <;>
    simp_all [applyName_recv, MatchExprName, ErrMsgExprName]

theorem stepEval_hasAuto (st : EvalSt) (e : EvalEntry) :
    (stepEval st e).recv.hasAuto = st.recv.hasAuto := by
  by_cases h : st.errMsg = ""
  · unfold stepEval
    rw [if_neg (by simp [h])]
    split_ifs <;> simp [applyName_recv]
  · rw [stepEval_frozen st e h]

theorem stepEval_auto_in (st : EvalSt) (e : EvalEntry) (h : st.errMsg = "") :
    ((stepEval st e).in_ = In.auto ↔ (st.in_ = In.auto ∧ isSourceName e.esName = false)) := by
  unfold stepEval
  rw [if_neg (by simp [h])]
  split_ifs with h1 h2 h3 h4 h5 h6 h7 h8 h9 <;>
    simp_all [applyName_in, isSourceName, MatchExprName, ErrMsgExprName]

theorem runEvals_or (φ : EvalSt → Bool) (t : EvalEntry → Bool)
    (hstep : ∀ st e, st.errMsg = "" → φ (stepEval st e) = (φ st || t e)) :
    ∀ (es : List EvalEntry) (st : EvalSt), (runEvals st es).errMsg = "" →
      φ (runEvals st es) = (φ st || es.any t) := by
  intro es
  induction es with
  | nil =>
    intro st h
    simp [runEvals]
  | cons e rest ih =>
    intro st h
    have hrun : runEvals st (e :: rest) = runEvals (stepEval st e) rest := rfl
    rw [hrun] at h ⊢
    have h1 : (stepEval st e).errMsg = "" := runEvals_err_back rest _ h
    have h0 : st.errMsg = "" := stepEval_err_back st e h1
    rw [ih (stepEval st e) h, hstep st e h0]
    simp [List.any_cons, Bool.or_assoc]

theorem runEvals_presBool (φ : EvalSt → Bool)
    (hstep : ∀ st e, φ (stepEval st e) = φ st) :
    ∀ (es : List EvalEntry) (st : EvalSt), φ (runEvals st es) = φ st := by
  intro es
  induction es with
  | nil => intro st; rfl
  | cons e rest ih =>
    intro st
    have hrun : runEvals st (e :: rest) = runEvals (stepEval st e) rest := rfl
    rw [hrun, ih (stepEval st e), hstep st e]

theorem runEvals_auto_in (es : List EvalEntry) (st : EvalSt)
    (h : (runEvals st es).errMsg = "") :
    ((runEvals st es).in_ = In.auto ↔
      (st.in_ = In.auto ∧ es.all (fun e => !isSourceName e.esName) = true)) := by
  induction es generalizing st with
  | nil => simp [runEvals]
  | cons e rest ih =>
    have hrun : runEvals st (e :: rest) = runEvals (stepEval st e) rest := rfl
    rw [hrun] at h ⊢
    have h1 : (stepEval st e).errMsg = "" := runEvals_err_back rest _ h
    have h0 : st.errMsg = "" := stepEval_err_back st e h1
    rw [ih (stepEval st e) h, stepEval_auto_in st e h0]
    simp only [List.all_cons, Bool.and_eq_true, Bool.not_eq_true']
    tauto

theorem finishField_flags (sel : String) (st : EvalSt) (r2 : Receiver)
    (h : finishField sel st = Except.ok r2) :
    st.errMsg = "" ∧
    r2.hasQuery = st.recv.hasQuery ∧
    r2.hasPath = st.recv.hasPath ∧
    r2.hasCookie = st.recv.hasCookie ∧
    r2.hasRawBody = st.recv.hasRawBody ∧
    r2.hasVd = st.recv.hasVd ∧
    r2.hasAuto = (st.recv.hasAuto || decide (st.in_ = In.auto)) ∧
    r2.hasBody = (st.recv.hasBody || decide (st.in_ = In.auto)) := by
  have he : st.errMsg = "" := by
    by_contra hne
    unfold finishField at h
    rw [if_pos hne] at h
    exact absurd h (by simp)
  unfold finishField at h
  rw [if_neg (by simp [he])] at h
  by_cases h2 : st.in_ = In.auto
  · rw [if_pos h2] at h
    injection h with h
    subst h
    simp [he, h2]
  · rw [if_neg h2] at h
    injection h with h
    subst h
    simp [he, h2]

theorem processField_flags (level : Level) (r : Receiver) (f : FieldInfo) (r2 : Receiver)
    (h : processField level r f = Except.ok r2) :
    r2.hasQuery = (r.hasQuery || (!shouldSkip level f && fieldHasEval f "query")) ∧
    r2.hasPath = (r.hasPath || (!shouldSkip level f && fieldHasEval f "path")) ∧
    r2.hasCookie = (r.hasCookie || (!shouldSkip level f && fieldHasEval f "cookie")) ∧
    r2.hasRawBody = (r.hasRawBody || (!shouldSkip level f && fieldHasEval f "raw_body")) ∧
    r2.hasVd = (r.hasVd || (!shouldSkip level f && fieldHasEval f MatchExprName)) ∧
    r2.hasAuto = (r.hasAuto || (!shouldSkip level f && autoResolved f)) ∧
    r2.hasBody = (r.hasBody ||
      (!shouldSkip level f && (fieldHasEval f "body" || autoResolved f))) := by
  unfold processField at h
  by_cases hs : shouldSkip level f
  · rw [if_pos hs] at h
    injection h with h
    subst h
    simp [hs]
  · rw [if_neg hs] at h
    by_cases hcs : f.canSet
    · rw [if_neg (by simp [hcs])] at h
      obtain ⟨he, hq, hp, hc, hrb, hvd, hau, hbo⟩ := finishField_flags f.selector _ r2 h
      have hdec : decide ((runEvals (initEvalSt r f.name) f.evals).in_ = In.auto)
          = autoResolved f := by
        have hiff := runEvals_auto_in f.evals (initEvalSt r f.name) he
        by_cases hb : autoResolved f = true
        · have hin : (runEvals (initEvalSt r f.name) f.evals).in_ = In.auto := by
            apply hiff.mpr
            refine ⟨rfl, ?_⟩
            simpa [autoResolved] using hb
          simp [hin, hb]
        · have hin : ¬(runEvals (initEvalSt r f.name) f.evals).in_ = In.auto := by
            rw [hiff]
            intro hcon
            exact hb (by simpa [autoResolved] using hcon.2)
          rw [Bool.not_eq_true] at hb
          simp [hin, hb]
      refine ⟨?_, ?_, ?_, ?_, ?_, ?_, ?_⟩
      · rw [hq, runEvals_or (fun s => s.recv.hasQuery) (fun e => e.esName == "query")
          stepEval_hasQuery f.evals _ he]
        simp [hs, fieldHasEval, initEvalSt]
      · rw [hp, runEvals_or (fun s => s.recv.hasPath) (fun e => e.esName == "path")
          stepEval_hasPath f.evals _ he]
        simp [hs, fieldHasEval, initEvalSt]
      · rw [hc, runEvals_or (fun s => s.recv.hasCookie) (fun e => e.esName == "cookie")
          stepEval_hasCookie f.evals _ he]
        simp [hs, fieldHasEval, initEvalSt]
      · rw [hrb, runEvals_or (fun s => s.recv.hasRawBody) (fun e => e.esName == "raw_body")
          stepEval_hasRawBody f.evals _ he]
        simp [hs, fieldHasEval, initEvalSt]
      · rw [hvd, runEvals_or (fun s => s.recv.hasVd) (fun e => e.esName == MatchExprName)
          stepEval_hasVd f.evals _ he]
        simp [hs, fieldHasEval, initEvalSt]
      · rw [hau, runEvals_presBool (fun s => s.recv.hasAuto) stepEval_hasAuto f.evals _, hdec]
        simp [hs, initEvalSt]
      · rw [hbo, runEvals_or (fun s => s.recv.hasBody) (fun e => e.esName == "body")
          stepEval_hasBody f.evals _ he, hdec]
        simp [hs, fieldHasEval, initEvalSt, Bool.or_assoc]
    · rw [if_pos (by simp [hcs])] at h
      exact absurd h (by simp)

theorem buildFields_or (level : Level) (φ : Receiver → Bool) (t : FieldInfo → Bool)
    (hstep : ∀ r f r2, processField level r f = Except.ok r2 → φ r2 = (φ r || t f)) :
    ∀ (fs : List FieldInfo) (r r2 : Receiver),
      buildFields level fs r = Except.ok r2 → φ r2 = (φ r || fs.any t) := by
  intro fs
  induction fs with
  | nil =>
    intro r r2 h
    unfold buildFields at h
    injection h with h
    subst h
    simp
  | cons f rest ih =>
    intro r r2 h
    unfold buildFields at h
    cases hp : processField level r f with
    | error e =>
      rw [hp] at h
      cases h
    | ok rm =>
      rw [hp] at h
      rw [ih rm r2 h, hstep r f rm hp]
      simp [List.any_cons, Bool.or_assoc]

theorem buildPlan_flags (level : Level) (bf : ErrFactory) (fields : List FieldInfo)
    (recv : Receiver) (h : buildPlan level bf fields = Except.ok recv) :
    recv.hasQuery = fields.any (fun f => !shouldSkip level f && fieldHasEval f "query") ∧
    recv.hasPath = fields.any (fun f => !shouldSkip level f && fieldHasEval f "path") ∧
    recv.hasCookie = fields.any (fun f => !shouldSkip level f && fieldHasEval f "cookie") ∧
    recv.hasRawBody = fields.any (fun f => !shouldSkip level f && fieldHasEval f "raw_body") ∧
    recv.hasVd = fields.any (fun f => !shouldSkip level f && fieldHasEval f MatchExprName) ∧
    recv.hasAuto = fields.any (fun f => !shouldSkip level f && autoResolved f) ∧
    recv.hasBody = fields.any (fun f =>
      !shouldSkip level f && (fieldHasEval f "body" || autoResolved f)) := by
  unfold buildPlan at h
  cases hb : buildFields level fields emptyReceiver with
  | error e =>
    rw [hb] at h
    simp at h
  | ok r0 =>
    rw [hb] at h
    injection h with h
    subst h
    refine ⟨?_, ?_, ?_, ?_, ?_, ?_, ?_⟩
    · rw [buildFields_or level (fun r => r.hasQuery)
        (fun f => !shouldSkip level f && fieldHasEval f "query")
        (fun r f r2 hpf => (processField_flags level r f r2 hpf).1) fields emptyReceiver r0 hb]
      simp [emptyReceiver]
    · rw [buildFields_or level (fun r => r.hasPath)
        (fun f => !shouldSkip level f && fieldHasEval f "path")
        (fun r f r2 hpf => (processField_flags level r f r2 hpf).2.1) fields emptyReceiver r0 hb]
      simp [emptyReceiver]
    · rw [buildFields_or level (fun r => r.hasCookie)
        (fun f => !shouldSkip level f && fieldHasEval f "cookie")
        (fun r f r2 hpf => (processField_flags level r f r2 hpf).2.2.1) fields emptyReceiver r0 hb]
      simp [emptyReceiver]
    · rw [buildFields_or level (fun r => r.hasRawBody)
        (fun f => !shouldSkip level f && fieldHasEval f "raw_body")
        (fun r f r2 hpf => (processField_flags level r f r2 hpf).2.2.2.1) fields emptyReceiver r0 hb]
      simp [emptyReceiver]
    · rw [buildFields_or level (fun r => r.hasVd)
        (fun f => !shouldSkip level f && fieldHasEval f MatchExprName)
        (fun r f r2 hpf => (processField_flags level r f r2 hpf).2.2.2.2.1) fields emptyReceiver r0 hb]
      simp [emptyReceiver]
    · rw [buildFields_or level (fun r => r.hasAuto)
        (fun f => !shouldSkip level f && autoResolved f)
        (fun r f r2 hpf => (processField_flags level r f r2 hpf).2.2.2.2.2.1) fields emptyReceiver r0 hb]
      simp [emptyReceiver]
    · rw [buildFields_or level (fun r => r.hasBody)
        (fun f => !shouldSkip level f && (fieldHasEval f "body" || autoResolved f))
        (fun r f r2 hpf => (processField_flags level r f r2 hpf).2.2.2.2.2.2) fields emptyReceiver r0 hb]
      simp [emptyReceiver]

/-- C1: the dispatcher processes descriptors in plan order and stops at the first
descriptor whose extraction or write fails, returning that descriptor's error; fields
of descriptors from the failing one onward keep their incoming contents. -/
theorem bind_stops_at_first_failure (bf : ErrFactory) (req : Request) (ps : List ParamInfo)
    (st st2 : Rec) (e : BindError)
    (hnd : (ps.map ParamInfo.fieldKey).Nodup)
    (h : bindLoop bf req ps st = (st2, some e)) :
    ∃ pre p suf, ps = pre ++ p :: suf ∧
      bindLoop bf req pre st = (st2, none) ∧
      dispatchOne bf req st2 p = Except.error e ∧
      ∀ q ∈ p :: suf, lookupVal st2 q.fieldKey = lookupVal st q.fieldKey := by
  induction ps generalizing st with
  | nil =>
    unfold bindLoop at h
    cases h
  | cons p rest ih =>
    unfold bindLoop at h
    cases hd : dispatchOne bf req st p with
    | error e0 =>
      rw [hd] at h
      cases h
      exact ⟨[], p, rest, rfl, rfl, hd, fun q _ => rfl⟩
    | ok stm =>
      rw [hd] at h
      have hnd2 : (rest.map ParamInfo.fieldKey).Nodup := by
        simp only [List.map_cons, List.nodup_cons] at hnd
        exact hnd.2
      obtain ⟨pre, p1, suf, heq, hpre, hfail, hkeep⟩ := ih stm hnd2 h
      refine ⟨p :: pre, p1, suf, by simp [heq], ?_, hfail, ?_⟩
      · unfold bindLoop
        rw [hd]
        exact hpre
      · intro q hq
        have hmem : q.fieldKey ∈ rest.map ParamInfo.fieldKey := by
          rw [heq]
          exact List.mem_map_of_mem ParamInfo.fieldKey (List.mem_append_right pre hq)
        have hne : q.fieldKey ≠ p.fieldKey := by
          simp only [List.map_cons, List.nodup_cons] at hnd
          intro hc
          rw [hc] at hmem
          exact hnd.1 hmem
        rw [hkeep q hq]
        exact dispatchOne_ne_key bf req st stm p hd q.fieldKey hne

theorem bind_stops_at_first_failure_witness :
    ∃ pre p suf, [wParamA, wParamB] = pre ++ p :: suf ∧
      bindLoop defaultBindErrFactory wReq pre [] = ([("A", "1")], none) ∧
      dispatchOne defaultBindErrFactory wReq [("A", "1")] p = Except.error wErr ∧
      ∀ q ∈ p :: suf, lookupVal [("A", "1")] q.fieldKey = lookupVal [] q.fieldKey :=
  bind_stops_at_first_failure defaultBindErrFactory wReq [wParamA, wParamB] [] [("A", "1")]
    wErr (by decide) (by decide)

/-- C2: a descriptor whose source is auto is dispatched body-first: a value present in
the decoded body is written from the body regardless of any same-named query
parameter, and when the body has no matching value the query string is consulted. -/
theorem auto_source_body_then_query (bf : ErrFactory) (req : Request) (st : Rec)
    (p : ParamInfo) (h : p.in_ = In.auto) :
    (∀ v, lookupVal req.bodyVals p.name = some v →
      dispatchOne bf req st p = Except.ok (setField st p.fieldKey v)) ∧
    (lookupVal req.bodyVals p.name = none →
      dispatchOne bf req st p = bindFrom bf req.queryVals "query" p st) ∧
    (∀ w, lookupVal req.bodyVals p.name = none → lookupVal req.queryVals p.name = some w →
      dispatchOne bf req st p = Except.ok (setField st p.fieldKey w)) := by
  refine ⟨?_, ?_, ?_⟩
  · intro v hv
    unfold dispatchOne
    rw [h]
    simp [bindBody, hv]
  · intro hv
    unfold dispatchOne
    rw [h]
    simp only [bindBody, hv]
    by_cases hr : p.required <;> simp [hr]
  · intro w hv hw
    unfold dispatchOne
    rw [h]
    simp only [bindBody, hv]
    by_cases hr : p.required <;> simp [hr, bindFrom, hw]

theorem auto_source_body_then_query_witness :
    (∀ v, lookupVal wReqBoth.bodyVals wParamAuto.name = some v →
      dispatchOne defaultBindErrFactory wReqBoth [] wParamAuto =
        Except.ok (setField [] wParamAuto.fieldKey v)) ∧
    (lookupVal wReqBoth.bodyVals wParamAuto.name = none →
      dispatchOne defaultBindErrFactory wReqBoth [] wParamAuto =
        bindFrom defaultBindErrFactory wReqBoth.queryVals "query" wParamAuto []) ∧
    (∀ w, lookupVal wReqBoth.bodyVals wParamAuto.name = none →
        lookupVal wReqBoth.queryVals wParamAuto.name = some w →
      dispatchOne defaultBindErrFactory wReqBoth [] wParamAuto =
        Except.ok (setField [] wParamAuto.fieldKey w)) :=
  auto_source_body_then_query defaultBindErrFactory wReqBoth [] wParamAuto (by decide)

/-- C3: a successfully built plan is stored under the type identity and every later
sequential lookup returns it unchanged, independently of the analysis input; a failed
build stores nothing, so the cache is exactly as before. -/
theorem plan_cache_once (b : Binding) (tid : Nat) (compile : Except BindError (List FieldInfo)) :
    (∀ r, lookupRecv b.recvs tid = some r →
      Binding.getObjOrPrepare b tid compile = (Except.ok r, b.recvs)) ∧
    (∀ recv rs, Binding.getObjOrPrepare b tid compile = (Except.ok recv, rs) →
      ∀ compile2, Binding.getObjOrPrepare { b with recvs := rs } tid compile2 =
        (Except.ok recv, rs)) ∧
    (∀ e rs, Binding.getObjOrPrepare b tid compile = (Except.error e, rs) → rs = b.recvs) := by
  refine ⟨?_, ?_, ?_⟩
  · intro r hr
    unfold Binding.getObjOrPrepare
    rw [hr]
  · intro recv rs hsucc compile2
    have hlook : lookupRecv rs tid = some recv := by
      unfold Binding.getObjOrPrepare at hsucc
      cases hl : lookupRecv b.recvs tid with
      | some r =>
        rw [hl] at hsucc
        injection hsucc with h1 h2
        injection h1 with h1
        rw [← h2, ← h1]
        exact hl
      | none =>
        rw [hl] at hsucc
        cases compile with
        | error e => simp at hsucc
        | ok fields =>
          dsimp only at hsucc
          cases hb : buildPlan b.level b.bindErrFactory fields with
          | error e =>
            rw [hb] at hsucc
            simp at hsucc
          | ok recv2 =>
            rw [hb] at hsucc
            dsimp only at hsucc
            injection hsucc with h1 h2
            injection h1 with h1
            rw [← h2, ← h1]
            exact lookupRecv_cons_self b.recvs tid recv2
    unfold Binding.getObjOrPrepare
    rw [hlook]
  · intro e rs herr
    unfold Binding.getObjOrPrepare at herr
    cases hl : lookupRecv b.recvs tid with
    | some r =>
      rw [hl] at herr
      simp at herr
    | none =>
      rw [hl] at herr
      cases compile with
      | error e2 =>
        dsimp only at herr
        injection herr with h1 h2
        rw [h2]
      | ok fields =>
        dsimp only at herr
        cases hb : buildPlan b.level b.bindErrFactory fields with
        | error e2 =>
          rw [hb] at herr
          dsimp only at herr
          injection herr with h1 h2
          rw [h2]
        | ok recv2 =>
          rw [hb] at herr
          simp at herr

theorem plan_cache_once_witness :
    Binding.getObjOrPrepare wCachedBinding 7 (Except.error wErr) =
      (Except.ok emptyReceiver, [(7, emptyReceiver)]) :=
  (plan_cache_once wCachedBinding 7 (Except.error wErr)).1 emptyReceiver (by decide)

/-- C4: the traversal policy skips every non-top-level field under OnlyFirst, skips a
non-top-level field under FirstAndTagged exactly when it carries none of the seven
recognized source/required directives, never skips under Any, and a skipped field
leaves the plan being built unchanged. -/
theorem traversal_policy_filter (f : FieldInfo) (r : Receiver) (level : Level) :
    (shouldSkip OnlyFirst f = true ↔ 0 < f.pathsLen) ∧
    (shouldSkip FirstAndTagged f = true ↔
      0 < f.pathsLen ∧ ¬ ∃ e ∈ f.evals,
        e.esName ∈ ["raw_body", "body", "query", "path", "header", "cookie", "required"]) ∧
    shouldSkip Any f = false ∧
    (shouldSkip level f = true → processField level r f = Except.ok r) := by
  refine ⟨?_, ?_, ?_, ?_⟩
  · simp [shouldSkip, OnlyFirst, FirstAndTagged]
  · simp only [shouldSkip, OnlyFirst, FirstAndTagged, Any]
    norm_num
    simp [isTagName, List.any_eq_true]
    intro hp
    constructor
    · intro hall e he
      have := hall e he
      simp at this
      simp [this]
    · intro hall e he
      have := hall e he
      simp at this
      simp [this]
  · simp [shouldSkip, Any, OnlyFirst, FirstAndTagged]
  · intro hskip
    unfold processField
    simp [hskip]

theorem traversal_policy_filter_witness :
    processField OnlyFirst emptyReceiver wNestedField = Except.ok emptyReceiver :=
  (traversal_policy_filter wNestedField emptyReceiver OnlyFirst).2.2.2 (by decide)

/-- C5: a destination that is not a non-nil pointer to an addressable struct makes
Bind and BindAndValidate fail immediately with the bind-error factory applied to an
empty field selector and the fixed message, with no binding attempted: the cache and
the record contents are unchanged and validation never runs. -/
theorem invalid_destination_rejected (b : Binding) (validate : Rec → Option BindError)
    (sp : GoValue) (req : Request) (h : notStructPtr sp = true) :
    Binding.Bind b sp req =
      { err := some (b.bindErrFactory "" spMsg), recData := recOfValue sp,
        recvs := b.recvs, hasVd := false } ∧
    Binding.BindAndValidate b validate sp req =
      { err := some (b.bindErrFactory "" spMsg), recData := recOfValue sp,
        recvs := b.recvs, ranVd := false } := by
  have hs := structValueOf_rejects b.bindErrFactory sp h
  constructor
  · unfold Binding.Bind
    rw [hs]
  · unfold Binding.BindAndValidate
    rw [hs]

theorem invalid_destination_rejected_witness :
    Binding.Bind (New "api") GoValue.other wEmptyReq =
      { err := some ((New "api").bindErrFactory "" spMsg), recData := recOfValue GoValue.other,
        recvs := (New "api").recvs, hasVd := false } ∧
    Binding.BindAndValidate (New "api") wNoValidate GoValue.other wEmptyReq =
      { err := some ((New "api").bindErrFactory "" spMsg), recData := recOfValue GoValue.other,
        recvs := (New "api").recvs, ranVd := false } :=
  invalid_destination_rejected (New "api") wNoValidate GoValue.other wEmptyReq (by decide)

/-- C6 counterexample: the plan built for a type whose only field reads from the
header has exactly the same aggregate flags as the plan of an empty type, so the
flags cannot record whether any field reads from the header source. -/
theorem plan_flags_not_recording_header :
    buildPlan Any defaultBindErrFactory [headerOnlyField] = Except.ok headerPlanReceiver ∧
    buildPlan Any defaultBindErrFactory [] = Except.ok emptyReceiver ∧
    flagsOf headerPlanReceiver = flagsOf emptyReceiver ∧
    readsHeader headerPlanReceiver = true ∧
    readsHeader emptyReceiver = false := by decide

/-- C6 (amended): for a successfully built plan, the aggregate flags record query,
path, cookie, raw-body readers, auto-sourced fields, validation rules, and a body flag
set by a body directive or an auto field; no flag records header readers. -/
theorem plan_flags_record_sources (level : Level) (bf : ErrFactory) (fields : List FieldInfo)
    (recv : Receiver) (h : buildPlan level bf fields = Except.ok recv) :
    (recv.hasQuery = true ↔
      ∃ f ∈ fields, shouldSkip level f = false ∧ fieldHasEval f "query" = true) ∧
    (recv.hasPath = true ↔
      ∃ f ∈ fields, shouldSkip level f = false ∧ fieldHasEval f "path" = true) ∧
    (recv.hasCookie = true ↔
      ∃ f ∈ fields, shouldSkip level f = false ∧ fieldHasEval f "cookie" = true) ∧
    (recv.hasRawBody = true ↔
      ∃ f ∈ fields, shouldSkip level f = false ∧ fieldHasEval f "raw_body" = true) ∧
    (recv.hasVd = true ↔
      ∃ f ∈ fields, shouldSkip level f = false ∧ fieldHasEval f MatchExprName = true) ∧
    (recv.hasAuto = true ↔
      ∃ f ∈ fields, shouldSkip level f = false ∧ autoResolved f = true) ∧
    (recv.hasBody = true ↔
      ∃ f ∈ fields, shouldSkip level f = false ∧
        (fieldHasEval f "body" = true ∨ autoResolved f = true)) := by
  obtain ⟨h1, h2, h3, h4, h5, h6, h7⟩ := buildPlan_flags level bf fields recv h
  refine ⟨?_, ?_, ?_, ?_, ?_, ?_, ?_⟩
  · rw [h1]
    simp [List.any_eq_true, Bool.not_eq_true']
  · rw [h2]
    simp [List.any_eq_true, Bool.not_eq_true']
  · rw [h3]
    simp [List.any_eq_true, Bool.not_eq_true']
  · rw [h4]
    simp [List.any_eq_true, Bool.not_eq_true']
  · rw [h5]
    simp [List.any_eq_true, Bool.not_eq_true']
  · rw [h6]
    simp [List.any_eq_true, Bool.not_eq_true']
  · rw [h7]
    simp [List.any_eq_true, Bool.not_eq_true']

theorem plan_flags_record_sources_witness :
    (wQueryReceiver.hasQuery = true ↔
      ∃ f ∈ [wQueryField], shouldSkip Any f = false ∧ fieldHasEval f "query" = true) ∧
    (wQueryReceiver.hasPath = true ↔
      ∃ f ∈ [wQueryField], shouldSkip Any f = false ∧ fieldHasEval f "path" = true) ∧
    (wQueryReceiver.hasCookie = true ↔
      ∃ f ∈ [wQueryField], shouldSkip Any f = false ∧ fieldHasEval f "cookie" = true) ∧
    (wQueryReceiver.hasRawBody = true ↔
      ∃ f ∈ [wQueryField], shouldSkip Any f = false ∧ fieldHasEval f "raw_body" = true) ∧
    (wQueryReceiver.hasVd = true ↔
      ∃ f ∈ [wQueryField], shouldSkip Any f = false ∧ fieldHasEval f MatchExprName = true) ∧
    (wQueryReceiver.hasAuto = true ↔
      ∃ f ∈ [wQueryField], shouldSkip Any f = false ∧ autoResolved f = true) ∧
    (wQueryReceiver.hasBody = true ↔
      ∃ f ∈ [wQueryField], shouldSkip Any f = false ∧
        (fieldHasEval f "body" = true ∨ autoResolved f = true)) :=
  plan_flags_record_sources Any defaultBindErrFactory [wQueryField] wQueryReceiver (by decide)

/-- C7: BindAndValidate runs the validation evaluator exactly when binding succeeded
and the reported plan flag hasVd is set, it propagates a binding failure without
validating, it returns the evaluator's verdict after a validated success, and the
flag is set iff some processed field carries the validation marker sub-expression. -/
theorem validation_runs_iff (b : Binding) (validate : Rec → Option BindError)
    (sp : GoValue) (req : Request) (level : Level) (bf : ErrFactory)
    (fields : List FieldInfo) (recv : Receiver)
    (hplan : buildPlan level bf fields = Except.ok recv) :
    ((Binding.BindAndValidate b validate sp req).ranVd =
      ((Binding.Bind b sp req).err.isNone && (Binding.Bind b sp req).hasVd)) ∧
    ((Binding.Bind b sp req).err.isSome →
      (Binding.BindAndValidate b validate sp req).err = (Binding.Bind b sp req).err ∧
      (Binding.BindAndValidate b validate sp req).ranVd = false) ∧
    ((Binding.Bind b sp req).err = none → (Binding.Bind b sp req).hasVd = true →
      (Binding.BindAndValidate b validate sp req).err =
        validate (Binding.Bind b sp req).recData ∧
      (Binding.BindAndValidate b validate sp req).ranVd = true) ∧
    ((Binding.Bind b sp req).err = none → (Binding.Bind b sp req).hasVd = false →
      (Binding.BindAndValidate b validate sp req).err = none ∧
      (Binding.BindAndValidate b validate sp req).ranVd = false) ∧
    (recv.hasVd = fields.any (fun f => !shouldSkip level f && fieldHasEval f MatchExprName)) := by
  have hctrl :
      ((Binding.BindAndValidate b validate sp req).ranVd =
        ((Binding.Bind b sp req).err.isNone && (Binding.Bind b sp req).hasVd)) ∧
      ((Binding.Bind b sp req).err.isSome →
        (Binding.BindAndValidate b validate sp req).err = (Binding.Bind b sp req).err ∧
        (Binding.BindAndValidate b validate sp req).ranVd = false) ∧
      ((Binding.Bind b sp req).err = none → (Binding.Bind b sp req).hasVd = true →
        (Binding.BindAndValidate b validate sp req).err =
          validate (Binding.Bind b sp req).recData ∧
        (Binding.BindAndValidate b validate sp req).ranVd = true) ∧
      ((Binding.Bind b sp req).err = none → (Binding.Bind b sp req).hasVd = false →
        (Binding.BindAndValidate b validate sp req).err = none ∧
        (Binding.BindAndValidate b validate sp req).ranVd = false) := by
    unfold Binding.Bind Binding.BindAndValidate
    cases hsv : structValueOf b.bindErrFactory sp with
    | error e => simp
    | ok sv =>
      cases hc : (b.bindStruct sv req).err with
      | some e => simp [hc]
      | none =>
        cases hv : (b.bindStruct sv req).hasVd with
        | false => simp [hc, hv]
        | true => simp [hc, hv]
  exact ⟨hctrl.1, hctrl.2.1, hctrl.2.2.1, hctrl.2.2.2,
    (buildPlan_flags level bf fields recv hplan).2.2.2.2.1⟩

theorem validation_runs_iff_witness :
    ((Binding.BindAndValidate (New "api") wValidateAlways wVdStruct wEmptyReq).ranVd =
      (((New "api").Bind wVdStruct wEmptyReq).err.isNone &&
        ((New "api").Bind wVdStruct wEmptyReq).hasVd)) ∧
    (((New "api").Bind wVdStruct wEmptyReq).err.isSome →
      (Binding.BindAndValidate (New "api") wValidateAlways wVdStruct wEmptyReq).err =
        ((New "api").Bind wVdStruct wEmptyReq).err ∧
      (Binding.BindAndValidate (New "api") wValidateAlways wVdStruct wEmptyReq).ranVd = false) ∧
    (((New "api").Bind wVdStruct wEmptyReq).err = none →
      ((New "api").Bind wVdStruct wEmptyReq).hasVd = true →
      (Binding.BindAndValidate (New "api") wValidateAlways wVdStruct wEmptyReq).err =
        wValidateAlways (((New "api").Bind wVdStruct wEmptyReq).recData) ∧
      (Binding.BindAndValidate (New "api") wValidateAlways wVdStruct wEmptyReq).ranVd = true) ∧
    (((New "api").Bind wVdStruct wEmptyReq).err = none →
      ((New "api").Bind wVdStruct wEmptyReq).hasVd = false →
      (Binding.BindAndValidate (New "api") wValidateAlways wVdStruct wEmptyReq).err = none ∧
      (Binding.BindAndValidate (New "api") wValidateAlways wVdStruct wEmptyReq).ranVd = false) ∧
    (wVdReceiver.hasVd =
      [wVdField].any (fun f => !shouldSkip FirstAndTagged f && fieldHasEval f MatchExprName)) :=
  validation_runs_iff (New "api") wValidateAlways wVdStruct wEmptyReq FirstAndTagged
    defaultBindErrFactory [wVdField] wVdReceiver (by decide)

/-- C8: the bind-error and validating-error factories are set independently: a nil
argument restores that factory's default without disturbing the other, the stored
bind factory depends only on the first argument and the stored validating factory
only on the second, and the rest of the tool is untouched. -/
theorem error_factories_independent (b b2 : Binding) (f g : ErrFactory)
    (o1 o2 o3 o4 : Option ErrFactory) :
    (Binding.SetErrorFactory b none o2).bindErrFactory = defaultBindErrFactory ∧
    (Binding.SetErrorFactory b o1 none).vdErrFactory = defaultValidatingErrFactory ∧
    (Binding.SetErrorFactory b (some f) o2).bindErrFactory = f ∧
    (Binding.SetErrorFactory b o1 (some g)).vdErrFactory = g ∧
    (Binding.SetErrorFactory b o1 o2).bindErrFactory =
      (Binding.SetErrorFactory b2 o1 o4).bindErrFactory ∧
    (Binding.SetErrorFactory b o1 o2).vdErrFactory =
      (Binding.SetErrorFactory b2 o3 o2).vdErrFactory ∧
    (Binding.SetErrorFactory b o1 o2).level = b.level ∧
    (Binding.SetErrorFactory b o1 o2).recvs = b.recvs :=
  ⟨rfl, rfl, rfl, rfl, rfl, rfl, rfl, rfl⟩

/-- C9: SetLevel stores a recognized traversal level as given and replaces any
unrecognized value by FirstAndTagged. -/
theorem set_level_normalizes (b : Binding) (level : Level) :
    ((level = OnlyFirst ∨ level = FirstAndTagged ∨ level = Any) →
      (Binding.SetLevel b level).level = level) ∧
    (level ≠ OnlyFirst → level ≠ FirstAndTagged → level ≠ Any →
      (Binding.SetLevel b level).level = FirstAndTagged) := by
  constructor
  · intro h
    unfold Binding.SetLevel
    rw [if_pos h]
  · intro h0 h1 h2
    unfold Binding.SetLevel
    rw [if_neg]
    simp [h0, h1, h2]

theorem set_level_normalizes_witness :
    (Binding.SetLevel (New "api") 7).level = FirstAndTagged :=
  (set_level_normalizes (New "api") 7).2 (by decide) (by decide) (by decide)

/-- C10: dispatch is not atomic on error; when the loop fails, the returned record is
exactly the state reached after the successful prefix, so earlier writes are kept. -/
theorem bind_error_keeps_partial_writes (bf : ErrFactory) (req : Request) (ps : List ParamInfo)
    (st st2 : Rec) (e : BindError)
    (h : bindLoop bf req ps st = (st2, some e)) :
    ∃ pre p suf, ps = pre ++ p :: suf ∧
      bindLoop bf req pre st = (st2, none) ∧
      dispatchOne bf req st2 p = Except.error e := by
  induction ps generalizing st with
  | nil =>
    unfold bindLoop at h
    cases h
  | cons p rest ih =>
    unfold bindLoop at h
    cases hd : dispatchOne bf req st p with
    | error e0 =>
      rw [hd] at h
      cases h
      exact ⟨[], p, rest, rfl, rfl, hd⟩
    | ok stm =>
      rw [hd] at h
      obtain ⟨pre, p1, suf, heq, hpre, hfail⟩ := ih stm h
      refine ⟨p :: pre, p1, suf, by simp [heq], ?_, hfail⟩
      unfold bindLoop
      rw [hd]
      exact hpre

theorem bind_error_keeps_partial_writes_witness :
    ∃ pre p suf, [wParamA, wParamB] = pre ++ p :: suf ∧
      bindLoop defaultBindErrFactory wReq pre [] = ([("A", "1")], none) ∧
      dispatchOne defaultBindErrFactory wReq [("A", "1")] p = Except.error wErr :=
  bind_error_keeps_partial_writes defaultBindErrFactory wReq [wParamA, wParamB] [] [("A", "1")]
    wErr (by decide)

end TagExprBinding
